import Mathlib

/-!
Verification of the parameterized workload-submission pattern of the
ezua-tutorials repository.

The repository consists of Kubernetes workload templates
(`spark_etl_new.yaml`, `DataProcessTransferFts-JarLocal-3.3.1.yaml`)
containing placeholder tokens, and Jupyter notebooks that materialize and
submit such templates (`Train_and_infer_mnist.ipynb`) or synchronize a
feature store (`ride-sharing-example.ipynb`).  The generalized
Workload Submission Generator (template store, parameter resolver,
descriptor materializer, submission client) is described by the
specification but has no implementing code in the repository, so those
components are modelled from the specification's words; the notebook
cells that do appear in the repository (the mlflow version guard, the
storageUri substitution cell, the `_MODEL_SAVE_PATH` save/restore cell)
are embedded directly from their source.
-/

/-- Error kinds of the submission pipeline: `NotFound`, `MissingParameter`,
`InvalidDescriptor`, `SubmissionRejected`, `PollError`, `Timeout`. -/
inductive SubmitError where
  | NotFound : SubmitError
  | MissingParameter : String → SubmitError
  | InvalidDescriptor : String → SubmitError
  | SubmissionRejected : String → SubmitError
  | PollError : SubmitError
  | Timeout : SubmitError
deriving DecidableEq

/-- Modelled from the spec: a segment of a template field value.  A field
value mixes literal text with named placeholder tokens, as in
`claimName: <username>-<namespace>-pvc` of
`DataProcessTransferFts-JarLocal-3.3.1.yaml` or the templated
`{{dag_run.conf.get("username")}}-volume` of `spark_etl_new.yaml`. -/
inductive Segment where
  | lit : String → Segment
  | hole : String → Segment
deriving DecidableEq

/-- Modelled from the spec: a template field value is a sequence of
segments. -/
abbrev TField := List Segment

/-- Modelled from the spec: a WorkloadTemplate is an ordered mapping of
configuration keys (dotted paths) to values-or-placeholders; the
Workload Submission Generator holding it has no code in the repository. -/
abbrev WorkloadTemplate := List (String × TField)

/-- Modelled from the spec: a ResolutionContext maps placeholder names to
concrete values, built per invocation. -/
abbrev ResolutionContext := List (String × String)

/-- Modelled from the spec: a MaterializedDescriptor is the template shape
after substitution; a fully materialized one contains no `hole` segment. -/
abbrev MaterializedDescriptor := List (String × TField)

/-- Look a placeholder token up in a resolution context. -/
def lookupCtx : ResolutionContext → String → Option String
  | [], _ => none
  | (k, v) :: rest, tok => if k = tok then some v else lookupCtx rest tok

/-- Placeholder tokens of one segment. -/
def segTokens : Segment → List String
  | .lit _ => []
  | .hole tok => [tok]

/-- Placeholder tokens of a field value, in order of occurrence. -/
def fieldTokens : TField → List String
  | [] => []
  | s :: rest => segTokens s ++ fieldTokens rest

/-- Placeholder tokens of a whole template, in order of occurrence. -/
def placeholderList : List (String × TField) → List String
  | [] => []
  | (_, f) :: rest => fieldTokens f ++ placeholderList rest

/-- The context provides a value for every placeholder token of the
template. -/
def providesAll (ctx : ResolutionContext) (t : WorkloadTemplate) : Bool :=
  (placeholderList t).all (fun tok => (lookupCtx ctx tok).isSome)

/-- The context provides values only for tokens that occur in the
template; together with `providesAll` this says the context supplies a
value for exactly the template's placeholder set. -/
def onlyTemplateTokens (ctx : ResolutionContext) (t : WorkloadTemplate) : Bool :=
  ctx.all (fun p => (placeholderList t).contains p.1)

/-- Modelled from the spec: substitute one segment, failing with
`MissingParameter` on an unresolvable token. -/
def substSeg (ctx : ResolutionContext) : Segment → Except SubmitError Segment
  | .lit s => .ok (.lit s)
  | .hole tok =>
    match lookupCtx ctx tok with
    | some v => .ok (.lit v)
    | none => .error (.MissingParameter tok)

/-- Modelled from the spec: substitute every segment of a field value. -/
def substField (ctx : ResolutionContext) : TField → Except SubmitError TField
  | [] => .ok []
  | s :: rest =>
    match substSeg ctx s with
    | .ok s' => (substField ctx rest).map (fun r => s' :: r)
    | .error e => .error e

/-- Modelled from the spec: substitute every field of a template. -/
def substituteFields (ctx : ResolutionContext) :
    WorkloadTemplate → Except SubmitError MaterializedDescriptor
  | [] => .ok []
  | (k, f) :: rest =>
    match substField ctx f with
    | .ok f' => (substituteFields ctx rest).map (fun r => (k, f') :: r)
    | .error e => .error e

/-- Modelled from the spec: look every token of a list up in the context,
collecting the used subset, failing with `MissingParameter` on the first
absent token. -/
def resolveTokens (ctx : ResolutionContext) :
    List String → Except SubmitError ResolutionContext
  | [] => .ok []
  | tok :: rest =>
    match lookupCtx ctx tok with
    | some v => (resolveTokens ctx rest).map (fun r => (tok, v) :: r)
    | none => .error (.MissingParameter tok)

/-- Modelled from the spec: the Parameter Resolver; for every placeholder
token found in the template, looks it up in the supplied context and
fails with `MissingParameter(token)` if absent.  The resolver has no
implementing code in the repository. -/
def resolve (t : WorkloadTemplate) (ctx : ResolutionContext) :
    Except SubmitError ResolutionContext :=
  resolveTokens ctx (placeholderList t)

/-- Text of one already-substituted segment; a remaining hole renders in
the documented `<name>` placeholder syntax. -/
def segText : Segment → String
  | .lit s => s
  | .hole tok => "<" ++ tok ++ ">"

/-- Rendered text of a field value. -/
def renderField : TField → String
  | [] => ""
  | s :: rest => segText s ++ renderField rest

/-- Byte rendering of a descriptor as `key: value` lines. -/
def renderDescriptor : MaterializedDescriptor → String
  | [] => ""
  | (k, f) :: rest => k ++ ": " ++ renderField f ++ "\n" ++ renderDescriptor rest

/-- Field of a descriptor by key (first occurrence). -/
def lookupAssoc : List (String × TField) → String → Option TField
  | [], _ => none
  | (k, f) :: rest, key => if k = key then some f else lookupAssoc rest key

/-- Rendered value of a descriptor field. -/
def getValue (d : MaterializedDescriptor) (key : String) : Option String :=
  (lookupAssoc d key).map renderField

/-- Digit characters of a quantity string. -/
def qtyDigits (cs : List Char) : List Char := cs.takeWhile Char.isDigit

/-- Numeric value of a digit string. -/
def digitsToNat (cs : List Char) : Nat :=
  cs.foldl (fun acc c => acc * 10 + (c.toNat - 48)) 0

/-- Modelled from the spec: parse a resource quantity of the documented
`<number><unit>` pattern into millicores; a bare number means whole
cores, the `m` unit means millicores. -/
def parseQuantity (s : String) : Option Nat :=
  let cs := s.data
  let digits := qtyDigits cs
  let rest := cs.dropWhile Char.isDigit
  if digits = [] then none
  else if rest = [] then some (digitsToNat digits * 1000)
  else if rest = ['m'] then some (digitsToNat digits)
  else none

/-- Request/limit key pairs checked by descriptor validation, following
the driver and executor `cores`/`coreLimit` pairs of the Spark
templates. -/
def resourcePairs : List (String × String) :=
  [("spec.driver.cores", "spec.driver.coreLimit"),
   ("spec.executor.cores", "spec.executor.coreLimit")]

/-- Character-list prefix test. -/
def charsPrefix : List Char → List Char → Bool
  | [], _ => true
  | _ :: _, [] => false
  | a :: as, b :: bs => a = b && charsPrefix as bs

/-- String prefix test over the underlying character lists. -/
def strPrefix (p s : String) : Bool := charsPrefix p.data s.data

/-- A descriptor key belongs to a top-level section when it is the
section name or a dotted path under it. -/
def keyInSection (key sec : String) : Bool :=
  key = sec || strPrefix (sec ++ ".") key

/-- The descriptor has some key in the given top-level section. -/
def hasSection (d : MaterializedDescriptor) (sec : String) : Bool :=
  d.any (fun p => keyInSection p.1 sec)

/-- Modelled from the spec: required top-level sections of a submittable
descriptor. -/
def requiredSections : List String := ["apiVersion", "kind", "metadata", "spec"]

/-- All required top-level sections are present. -/
def sectionsOk (d : MaterializedDescriptor) : Bool :=
  requiredSections.all (hasSection d)

/-- One request/limit pair is consistent: when both fields are present
and parse as quantities, the request must not exceed the limit. -/
def pairOk (d : MaterializedDescriptor) (pr : String × String) : Bool :=
  match getValue d pr.1, getValue d pr.2 with
  | some rs, some ls =>
    match parseQuantity rs, parseQuantity ls with
    | some rq, some lq => rq ≤ lq
    | _, _ => true
  | _, _ => true

/-- Every request/limit pair is consistent. -/
def resourcesOk (d : MaterializedDescriptor) : Bool :=
  resourcePairs.all (pairOk d)

/-- String suffix test over the underlying character lists. -/
def strSuffix (suf s : String) : Bool :=
  charsPrefix suf.data.reverse s.data.reverse

/-- A descriptor key naming a volume mount path, after the
`volumeMounts` entries of the Spark templates. -/
def isMountPathKey (key : String) : Bool :=
  key = "mountPath" || strSuffix ".mountPath" key

/-- All volume mount paths of a descriptor. -/
def mountPathsOf (d : MaterializedDescriptor) : List String :=
  (d.filter (fun p => isMountPathKey p.1)).map (fun p => renderField p.2)

/-- Two mount paths overlap when equal or one is a slash-separated
ancestor of the other. -/
def overlaps (a b : String) : Bool :=
  a = b || strPrefix (a ++ "/") b || strPrefix (b ++ "/") a

/-- No two paths of the list overlap. -/
def pairwiseNoOverlap : List String → Bool
  | [] => true
  | p :: rest => rest.all (fun q => !overlaps p q) && pairwiseNoOverlap rest

/-- Volume mount paths of the descriptor are non-overlapping. -/
def mountsOk (d : MaterializedDescriptor) : Bool :=
  pairwiseNoOverlap (mountPathsOf d)

/-- Modelled from the spec: descriptor validation of the Descriptor
Materializer — required top-level sections present, resource requests
not exceeding their limits, volume mount paths non-overlapping; fails
with `InvalidDescriptor(reason)` on any violation.  The materializer has
no implementing code in the repository. -/
def validate (d : MaterializedDescriptor) : Except SubmitError Unit :=
  if sectionsOk d = false then
    .error (.InvalidDescriptor "missing required top-level section")
  else if resourcesOk d = false then
    .error (.InvalidDescriptor "resource request exceeds limit")
  else if mountsOk d = false then
    .error (.InvalidDescriptor "overlapping volume mount paths")
  else .ok ()

/-- Modelled from the spec: the Descriptor Materializer — substitutes
every placeholder with its resolved value, then validates the result; a
pure all-or-nothing transform.  The materializer has no implementing
code in the repository. -/
def materialize (t : WorkloadTemplate) (ctx : ResolutionContext) :
    Except SubmitError MaterializedDescriptor :=
  match substituteFields ctx t with
  | .error e => .error e
  | .ok d =>
    match validate d with
    | .error e => .error e
    | .ok _ => .ok d

/-- Workload phases of the submission state machine
`Pending -> Running -> (Succeeded or Failed)`. -/
inductive Phase where
  | Pending : Phase
  | Running : Phase
  | Succeeded : Phase
  | Failed : Phase
deriving DecidableEq

/-- Terminal (absorbing) phases. -/
def Phase.isTerminal : Phase → Bool
  | .Succeeded => true
  | .Failed => true
  | _ => false

/-- A submitted workload: identifier, current phase, last observed status
message. -/
structure SubmissionRecord where
  id : String
  phase : Phase
  lastMessage : String
deriving DecidableEq

/-- Modelled from the spec: one poll per interval; `status k` is the
phase the remote orchestration API reports at the k-th poll.  Stops at
the first terminal phase, or fails with `Timeout` when the poll budget
is exhausted.  The Submission Client has no implementing code in the
repository; the notebook's `until kubectl get pods ... ; do sleep 10`
loop is its closest observed relative. -/
def pollLoop (status : Nat → Phase) (k : Nat) : Nat → Except SubmitError Phase
  | 0 => .error .Timeout
  | n + 1 =>
    let p := status k
    if p.isTerminal then .ok p else pollLoop status (k + 1) n

/-- Modelled from the spec: `await_terminal(record, timeout)` polls the
status at a bounded interval until the phase is Succeeded or Failed, or
the timeout elapses, failing with `Timeout` when no terminal phase is
reached in time. -/
def await_terminal (status : Nat → Phase) (rec : SubmissionRecord)
    (timeout interval : Nat) : Except SubmitError SubmissionRecord :=
  match pollLoop status 0 (timeout / interval) with
  | .ok p => .ok { rec with phase := p }
  | .error e => .error e

/-- A feature row of the ride-sharing example: driver id, event
timestamp, feature value. -/
structure FeatureRow where
  key : Nat
  ts : Nat
  value : Int
deriving DecidableEq

/-- The online feature store contents. -/
abbrev OnlineStore := List FeatureRow

/-- Row stored for a driver id (first occurrence). -/
def findRow : OnlineStore → Nat → Option FeatureRow
  | [], _ => none
  | r :: rest, k => if r.key = k then some r else findRow rest k

/-- Replace every stored row of the given row's key. -/
def replaceRow : OnlineStore → FeatureRow → OnlineStore
  | [], _ => []
  | x :: rest, r => (if x.key = r.key then r else x) :: replaceRow rest r

/-- Modelled from the spec: incremental upsert of one source row into the
online store — a strictly newer row overwrites the stored one, anything
else leaves the store unchanged; an unknown key is inserted.  The
feature store engine behind `fs.materialize_incremental` is external to
the repository. -/
def upsertRow (store : OnlineStore) (r : FeatureRow) : OnlineStore :=
  match findRow store r.key with
  | none => r :: store
  | some cur => if cur.ts < r.ts then replaceRow store r else store

/-- Sync a list of source rows into the online store in order. -/
def syncRows : OnlineStore → List FeatureRow → OnlineStore
  | store, [] => store
  | store, r :: rest => syncRows (upsertRow store r) rest

/-- Feature store state: registered schema (feature definitions) and the
online store contents. -/
structure StoreState where
  schema : List String
  online : OnlineStore
deriving DecidableEq

/-- Modelled from the spec: the apply phase (`fs.apply` of
`ride-sharing-example.ipynb`) registers the feature definitions; the
engine behind it is external to the repository. -/
def applyDefs (defs : List String) (s : StoreState) : StoreState :=
  { s with schema := defs }

/-- Modelled from the spec: the incremental materialization phase
(`fs.materialize_incremental(now)` of `ride-sharing-example.ipynb`)
syncs every source row up to the cutoff time into the online store. -/
def materialize_incremental (source : List FeatureRow) (now : Nat)
    (s : StoreState) : StoreState :=
  { s with online := syncRows s.online (source.filter (fun r => r.ts ≤ now)) }

/-- Modelled from the spec: the two-phase store synchronization — apply
the schema, then incrementally sync the data. -/
def syncStore (defs : List String) (source : List FeatureRow) (now : Nat)
    (s : StoreState) : StoreState :=
  materialize_incremental source now (applyDefs defs s)

/-- A YAML document as loaded by `yaml.safe_load` in
`Train_and_infer_mnist.ipynb`: a scalar string or a mapping. -/
inductive Yaml where
  | str : String → Yaml
  | map : List (String × Yaml) → Yaml

/-- Value of a mapping key (first occurrence). -/
def lookupField : List (String × Yaml) → String → Option Yaml
  | [], _ => none
  | (k, v) :: rest, key => if k = key then some v else lookupField rest key

/-- Set a mapping key, replacing the first occurrence or appending a new
entry, as Python dict assignment does. -/
def setField : List (String × Yaml) → String → Yaml → List (String × Yaml)
  | [], key, v => [(key, v)]
  | (k, w) :: rest, key, v =>
    if k = key then (k, v) :: rest else (k, w) :: setField rest key v

/-- Value at a dotted path of a YAML document. -/
def getPath : Yaml → List String → Option Yaml
  | y, [] => some y
  | .map fs, k :: ks =>
    match lookupField fs k with
    | some child => getPath child ks
    | none => none
  | .str _, _ :: _ => none

/-- Set the value at a path, mirroring the Python chained subscription
`data["spec"]["predictor"]["tensorflow"]["storageUri"] = v`: every
intermediate key must exist and be a mapping (otherwise the cell raises,
modelled as `none`), while the final assignment creates or replaces the
key. -/
def setPath : Yaml → List String → Yaml → Option Yaml
  | _, [], _ => none
  | .map fs, [k], v => some (.map (setField fs k v))
  | .map fs, k :: k2 :: ks, v =>
    match lookupField fs k with
    | some child =>
      (setPath child (k2 :: ks) v).map (fun c => .map (setField fs k c))
    | none => none
  | .str _, _ :: _, _ => none

/-- List prefix test on path components. -/
def isPrefixL : List String → List String → Bool
  | [], _ => true
  | _ :: _, [] => false
  | a :: as, b :: bs => a = b && isPrefixL as bs

/-- Two paths are disjoint when neither is a prefix of the other. -/
def pathDisjoint (a b : List String) : Bool :=
  !isPrefixL a b && !isPrefixL b a

/-- The field path assigned by the inference-service materialization cell
of `Train_and_infer_mnist.ipynb`. -/
def storageUriPath : List String :=
  ["spec", "predictor", "tensorflow", "storageUri"]

/-- Path of the template file read by the materialization cell. -/
def templateFilePath : String :=
  "/mnt/shared/ezua-tutorials/Data-Science/Kubeflow-GPU/gpu_mnist_inferenceservice.yaml"

/-- Path of the output file written by the materialization cell. -/
def outputFilePath : String := "/tmp/gpu_mnist_inferenceservice.yaml"

/-- The inference-service materialization cell of
`Train_and_infer_mnist.ipynb`: load the template, assign
`spec.predictor.tensorflow.storageUri`, and return the document written
to `outputFilePath` (`none` when the chained subscription raises). -/
def materializeCell (template : Yaml) (savedModelPath : String) : Option Yaml :=
  setPath template storageUriPath (.str savedModelPath)

/-- The mlflow version guard cell of `Train_and_infer_mnist.ipynb`:
raises `Exception("Restart the kernel and try again")` unless the
installed mlflow version is exactly `2.4.0`. -/
def mlflowVersionGuard (installed : String) : Except String Unit :=
  if installed = "2.4.0" then .ok () else .error "Restart the kernel and try again"

/-- The guard cell followed by the rest of the workflow: the rest runs
only when the guard passes. -/
def runGuardedWorkflow {α : Type} (installed : String) (rest : α) :
    Except String α :=
  (mlflowVersionGuard installed).map (fun _ => rest)

/-- Model metadata returned by `mlflow.tensorflow.log_model`. -/
structure ModelInfo where
  runId : String
  artifactPath : String
deriving DecidableEq

/-- The model-save cell of `Train_and_infer_mnist.ipynb`: back up
`mlflow.tensorflow._MODEL_SAVE_PATH`, append `/1`, call `log_model` on
the extended path, then restore the backup.  Returns the `log_model`
result together with the final value of `_MODEL_SAVE_PATH`; when
`log_model` raises (`none`), the restore line is not reached and the
extended path is left in place. -/
def saveCellRun (logModel : String → Option ModelInfo) (savePath : String) :
    Option ModelInfo × String :=
  let backup := savePath
  let extended := savePath ++ "/1"
  match logModel extended with
  | some info => (some info, backup)
  | none => (none, extended)

/-- The `spark_etl_new.yaml` template of the Investment-Banking demo,
flattened to dotted keys; the templated
`{{dag_run.conf.get("username")}}` occurrences are the `username`
placeholder token. -/
def sparkEtlTemplate : WorkloadTemplate :=
  [("apiVersion", [.lit "sparkoperator.hpe.com/v1beta2"]),
   ("kind", [.lit "SparkApplication"]),
   ("metadata.name", [.lit "spark-etl"]),
   ("metadata.namespace", [.lit "spark"]),
   ("spec.type", [.lit "Python"]),
   ("spec.sparkVersion", [.lit "3.3.1"]),
   ("spec.mode", [.lit "cluster"]),
   ("spec.image", [.lit "gcr.io/mapr-252711/spark-py-3.3.1:v3.3.1"]),
   ("spec.mainApplicationFile",
    [.lit "local:///mounts/shared-volume/spark/spark_etl_new.py"]),
   ("spec.driver.cores", [.lit "1"]),
   ("spec.driver.coreLimit", [.lit "1"]),
   ("spec.driver.memory", [.lit "1g"]),
   ("spec.driver.volumeMounts.0.name", [.hole "username", .lit "-volume"]),
   ("spec.driver.volumeMounts.0.mountPath",
    [.lit "/mounts/", .hole "username", .lit "-volume"]),
   ("spec.driver.volumeMounts.1.name", [.lit "shared-volume"]),
   ("spec.driver.volumeMounts.1.mountPath", [.lit "/mounts/shared-volume"]),
   ("spec.executor.cores", [.lit "1"]),
   ("spec.executor.coreLimit", [.lit "1"]),
   ("spec.executor.memory", [.lit "1g"]),
   ("spec.volumes.0.name", [.hole "username", .lit "-volume"]),
   ("spec.volumes.0.persistentVolumeClaim.claimName",
    [.hole "username", .lit "-spark-pvc"]),
   ("spec.volumes.1.name", [.lit "shared-volume"]),
   ("spec.volumes.1.persistentVolumeClaim.claimName",
    [.lit "kubeflow-shared-pvc"])]

/-- The `sparkEtlTemplate` fully materialized with username `alice`. -/
def sparkEtlAlice : MaterializedDescriptor :=
  [("apiVersion", [.lit "sparkoperator.hpe.com/v1beta2"]),
   ("kind", [.lit "SparkApplication"]),
   ("metadata.name", [.lit "spark-etl"]),
   ("metadata.namespace", [.lit "spark"]),
   ("spec.type", [.lit "Python"]),
   ("spec.sparkVersion", [.lit "3.3.1"]),
   ("spec.mode", [.lit "cluster"]),
   ("spec.image", [.lit "gcr.io/mapr-252711/spark-py-3.3.1:v3.3.1"]),
   ("spec.mainApplicationFile",
    [.lit "local:///mounts/shared-volume/spark/spark_etl_new.py"]),
   ("spec.driver.cores", [.lit "1"]),
   ("spec.driver.coreLimit", [.lit "1"]),
   ("spec.driver.memory", [.lit "1g"]),
   ("spec.driver.volumeMounts.0.name", [.lit "alice", .lit "-volume"]),
   ("spec.driver.volumeMounts.0.mountPath",
    [.lit "/mounts/", .lit "alice", .lit "-volume"]),
   ("spec.driver.volumeMounts.1.name", [.lit "shared-volume"]),
   ("spec.driver.volumeMounts.1.mountPath", [.lit "/mounts/shared-volume"]),
   ("spec.executor.cores", [.lit "1"]),
   ("spec.executor.coreLimit", [.lit "1"]),
   ("spec.executor.memory", [.lit "1g"]),
   ("spec.volumes.0.name", [.lit "alice", .lit "-volume"]),
   ("spec.volumes.0.persistentVolumeClaim.claimName",
    [.lit "alice", .lit "-spark-pvc"]),
   ("spec.volumes.1.name", [.lit "shared-volume"]),
   ("spec.volumes.1.persistentVolumeClaim.claimName",
    [.lit "kubeflow-shared-pvc"])]

/-- A descriptor whose driver core request exceeds its core limit,
following the `cores: 1` / `coreLimit: "1000m"` shape of
`DataProcessTransferFts-JarLocal-3.3.1.yaml` with the request raised
above the limit. -/
def overLimitDescriptor : MaterializedDescriptor :=
  [("apiVersion", [.lit "sparkoperator.hpe.com/v1beta2"]),
   ("kind", [.lit "SparkApplication"]),
   ("metadata.name", [.lit "data-process-transfer-demo"]),
   ("spec.type", [.lit "Scala"]),
   ("spec.driver.cores", [.lit "2"]),
   ("spec.driver.coreLimit", [.lit "1000m"])]

/-- A placeholder-free template whose materialization is rejected by
validation: the driver requests 2 cores against a 1000m limit. -/
def overLimitTemplate : WorkloadTemplate := overLimitDescriptor

/-- A remote status stream that never leaves `Running`, as in the
scenario where the inference-service pod never becomes ready. -/
def alwaysRunning : Nat → Phase := fun _ => .Running

/-- Concrete driver-stats source rows for the ride-sharing feature
store example. -/
def rideSharingSource : List FeatureRow :=
  [⟨1001, 3, 10⟩, ⟨1002, 4, 7⟩, ⟨1001, 5, 12⟩]

/-- A concrete inference-service template document of the shape loaded
by the materialization cell. -/
def mnistInferenceTemplate : Yaml :=
  .map [("apiVersion", .str "serving.kserve.io/v1beta1"),
        ("kind", .str "InferenceService"),
        ("metadata", .map [("name", .str "gpu-mnist-inferenceservice")]),
        ("spec", .map [("predictor", .map [("tensorflow",
          .map [("storageUri", .str "PLACEHOLDER"),
                ("runtimeVersion", .str "2.11.0-gpu")])])])]

/-- The concrete template after the materialization cell assigned the
saved-model URI. -/
def mnistInferenceMaterialized : Yaml :=
  .map [("apiVersion", .str "serving.kserve.io/v1beta1"),
        ("kind", .str "InferenceService"),
        ("metadata", .map [("name", .str "gpu-mnist-inferenceservice")]),
        ("spec", .map [("predictor", .map [("tensorflow",
          .map [("storageUri", .str "s3://mlflow/1/abc/artifacts/model/data/model/1"),
                ("runtimeVersion", .str "2.11.0-gpu")])])])]

example : materialize [("spec.cores", [.hole "n"]), ("spec.path", [.hole "p"])]
    [("n", "2"), ("p", "/data/x")] =
    .error (.InvalidDescriptor "missing required top-level section") := by rfl

example :
    substituteFields [("n", "2"), ("p", "/data/x")]
      [("cores", [.hole "n"]), ("path", [.hole "p"])] =
    .ok [("cores", [.lit "2"]), ("path", [.lit "/data/x"])] := by rfl

example : parseQuantity "1000m" = some 1000 := by rfl
example : parseQuantity "2" = some 2000 := by rfl
example : parseQuantity "1g" = none := by rfl

example : placeholderList sparkEtlTemplate =
    ["username", "username", "username", "username"] := by rfl

example : materialize sparkEtlTemplate [("username", "alice")] =
    .ok sparkEtlAlice := by rfl

example : materialize overLimitTemplate [] =
    .error (.InvalidDescriptor "resource request exceeds limit") := by rfl

/-- Every successfully substituted segment is a literal. -/
theorem substSeg_ok_tokens {ctx : ResolutionContext} {s s' : Segment}
    (h : substSeg ctx s = .ok s') : segTokens s' = [] := by
  cases s with
  | lit t =>
    simp only [substSeg, Except.ok.injEq] at h
    subst h; rfl
  | hole tok =>
    simp only [substSeg] at h
    cases hl : lookupCtx ctx tok with
    | some v =>
      rw [hl] at h
      simp only [Except.ok.injEq] at h
      subst h; rfl
    | none =>
      rw [hl] at h
      exact Except.noConfusion h

/-- A successfully substituted field value has no remaining token. -/
theorem substField_ok_tokens {ctx : ResolutionContext} :
    ∀ {f f' : TField}, substField ctx f = .ok f' → fieldTokens f' = []
  | [], f', h => by
    simp only [substField, Except.ok.injEq] at h
    subst h; rfl
  | s :: rest, f', h => by
    simp only [substField] at h
    cases hs : substSeg ctx s with
    | error e => rw [hs] at h; exact Except.noConfusion h
    | ok s' =>
      rw [hs] at h
      cases hr : substField ctx rest with
      | error e => rw [hr] at h; exact Except.noConfusion h
      | ok r =>
        rw [hr] at h
        simp only [Except.map, Except.ok.injEq] at h
        subst h
        simp [fieldTokens, substSeg_ok_tokens hs, substField_ok_tokens hr]

/-- A successfully substituted descriptor has no remaining placeholder
token. -/
theorem substituteFields_ok_tokens {ctx : ResolutionContext} :
    ∀ {t : WorkloadTemplate} {d : MaterializedDescriptor},
      substituteFields ctx t = .ok d → placeholderList d = []
  | [], d, h => by
    simp only [substituteFields, Except.ok.injEq] at h
    subst h; rfl
  | (k, f) :: rest, d, h => by
    simp only [substituteFields] at h
    cases hf : substField ctx f with
    | error e => rw [hf] at h; exact Except.noConfusion h
    | ok f' =>
      rw [hf] at h
      cases hr : substituteFields ctx rest with
      | error e => rw [hr] at h; exact Except.noConfusion h
      | ok r =>
        rw [hr] at h
        simp only [Except.map, Except.ok.injEq] at h
        subst h
        simp [placeholderList, substField_ok_tokens hf,
          substituteFields_ok_tokens hr]

/-- When every token of a field is provided, its substitution
succeeds. -/
theorem substField_ok_of_provided {ctx : ResolutionContext} :
    ∀ (f : TField), (∀ tok ∈ fieldTokens f, (lookupCtx ctx tok).isSome = true) →
      ∃ f', substField ctx f = .ok f'
  | [], _ => ⟨[], rfl⟩
  | .lit t :: rest, h => by
    obtain ⟨r, hr⟩ := substField_ok_of_provided rest
      (fun tok htok => h tok (by simp [fieldTokens, segTokens, htok]))
    exact ⟨.lit t :: r, by simp [substField, substSeg, hr, Except.map]⟩
  | .hole tok :: rest, h => by
    have htok : (lookupCtx ctx tok).isSome = true :=
      h tok (by simp [fieldTokens, segTokens])
    obtain ⟨v, hv⟩ := Option.isSome_iff_exists.mp htok
    obtain ⟨r, hr⟩ := substField_ok_of_provided rest
      (fun tk htk => h tk (by simp [fieldTokens, segTokens, htk]))
    exact ⟨.lit v :: r, by simp [substField, substSeg, hv, hr, Except.map]⟩

/-- When every placeholder of the template is provided, substitution of
the whole template succeeds. -/
theorem substituteFields_ok_of_provided {ctx : ResolutionContext} :
    ∀ (t : WorkloadTemplate),
      (∀ tok ∈ placeholderList t, (lookupCtx ctx tok).isSome = true) →
      ∃ d, substituteFields ctx t = .ok d
  | [], _ => ⟨[], rfl⟩
  | (k, f) :: rest, h => by
    obtain ⟨f', hf⟩ := substField_ok_of_provided f
      (fun tok htok => h tok (by simp [placeholderList, htok]))
    obtain ⟨r, hr⟩ := substituteFields_ok_of_provided rest
      (fun tok htok => h tok (by simp [placeholderList, htok]))
    exact ⟨(k, f') :: r, by simp [substituteFields, hf, hr, Except.map]⟩

/-- Successful substitution of a field means every one of its tokens was
provided. -/
theorem substField_ok_provided {ctx : ResolutionContext} :
    ∀ {f f' : TField}, substField ctx f = .ok f' →
      ∀ tok ∈ fieldTokens f, (lookupCtx ctx tok).isSome = true
  | [], _, _ => by simp [fieldTokens]
  | s :: rest, f', h => by
    simp only [substField] at h
    cases hs : substSeg ctx s with
    | error e => rw [hs] at h; exact Except.noConfusion h
    | ok s' =>
      rw [hs] at h
      cases hr : substField ctx rest with
      | error e => rw [hr] at h; exact Except.noConfusion h
      | ok r =>
        intro tok htok
        simp only [fieldTokens, List.mem_append] at htok
        rcases htok with htok | htok
        · cases s with
          | lit t => simp [segTokens] at htok
          | hole tk =>
            simp only [segTokens, List.mem_singleton] at htok
            subst htok
            simp only [substSeg] at hs
            cases hl : lookupCtx ctx tok with
            | some v => simp [hl]
            | none => rw [hl] at hs; exact Except.noConfusion hs
        · exact substField_ok_provided hr tok htok

/-- Successful substitution of a template means every placeholder token
was provided. -/
theorem substituteFields_ok_provided {ctx : ResolutionContext} :
    ∀ {t : WorkloadTemplate} {d : MaterializedDescriptor},
      substituteFields ctx t = .ok d →
      ∀ tok ∈ placeholderList t, (lookupCtx ctx tok).isSome = true
  | [], _, _ => by simp [placeholderList]
  | (k, f) :: rest, d, h => by
    simp only [substituteFields] at h
    cases hf : substField ctx f with
    | error e => rw [hf] at h; exact Except.noConfusion h
    | ok f' =>
      rw [hf] at h
      cases hr : substituteFields ctx rest with
      | error e => rw [hr] at h; exact Except.noConfusion h
      | ok r =>
        intro tok htok
        simp only [placeholderList, List.mem_append] at htok
        rcases htok with htok | htok
        · exact substField_ok_provided hf tok htok
        · exact substituteFields_ok_provided hr tok htok

/-- Validation failures are always `InvalidDescriptor`. -/
theorem validate_error_shape {d : MaterializedDescriptor} {e : SubmitError}
    (h : validate d = .error e) : ∃ r, e = .InvalidDescriptor r := by
  unfold validate at h
  split at h
  · injection h with h; exact ⟨_, h.symm⟩
  · split at h
    · injection h with h; exact ⟨_, h.symm⟩
    · split at h
      · injection h with h; exact ⟨_, h.symm⟩
      · exact Except.noConfusion h

/-- A token list with a missing token resolves to a `MissingParameter`
error naming some missing token of the list. -/
theorem resolveTokens_missing {ctx : ResolutionContext} :
    ∀ {toks : List String}, (∃ tok ∈ toks, lookupCtx ctx tok = none) →
      ∃ tok, tok ∈ toks ∧ lookupCtx ctx tok = none ∧
        resolveTokens ctx toks = .error (.MissingParameter tok)
  | [], h => by simp at h
  | tk :: rest, h => by
    cases hl : lookupCtx ctx tk with
    | none => exact ⟨tk, by simp, hl, by simp [resolveTokens, hl]⟩
    | some v =>
      have hrest : ∃ tok ∈ rest, lookupCtx ctx tok = none := by
        obtain ⟨tok, htok, hnone⟩ := h
        rcases List.mem_cons.mp htok with heq | hmem
        · subst heq; rw [hl] at hnone; exact Option.noConfusion hnone
        · exact ⟨tok, hmem, hnone⟩
      obtain ⟨tok, hmem, hnone, herr⟩ := resolveTokens_missing hrest
      exact ⟨tok, by simp [hmem], hnone,
        by simp [resolveTokens, hl, herr, Except.map]⟩

/-- C1 (amended): for every template whose placeholder set is P and
every resolution context supplying a value for exactly the tokens in P,
materialize never fails with MissingParameter, and whenever it succeeds
the produced descriptor contains no remaining placeholder token;
materialize can still reject the fully substituted descriptor with
InvalidDescriptor during validation. -/
theorem materialize_with_exact_context (t : WorkloadTemplate)
    (ctx : ResolutionContext) (hall : providesAll ctx t = true)
    (honly : onlyTemplateTokens ctx t = true) :
    (∀ tok, materialize t ctx ≠ .error (.MissingParameter tok)) ∧
    (∀ d, materialize t ctx = .ok d → placeholderList d = []) := by
  have hprov : ∀ tok ∈ placeholderList t, (lookupCtx ctx tok).isSome = true := by
    simpa [providesAll, List.all_eq_true] using hall
  obtain ⟨d0, hd0⟩ := substituteFields_ok_of_provided t hprov
  have hm : materialize t ctx =
      (match validate d0 with
       | .error e => .error e
       | .ok _ => .ok d0) := by
    simp [materialize, hd0]
  constructor
  · intro tok hcon
    cases hv : validate d0 with
    | error e =>
      simp only [hv] at hm
      rw [hm] at hcon
      injection hcon with hcon
      obtain ⟨r, hr⟩ := validate_error_shape hv
      subst hr
      exact SubmitError.noConfusion hcon
    | ok u =>
      simp only [hv] at hm
      rw [hm] at hcon
      exact Except.noConfusion hcon
  · intro d hd
    cases hv : validate d0 with
    | error e =>
      simp only [hv] at hm
      rw [hm] at hd
      exact Except.noConfusion hd
    | ok u =>
      simp only [hv] at hm
      rw [hm] at hd
      injection hd with hd
      subst hd
      exact substituteFields_ok_tokens hd0

/-- C1 witness: the spark ETL template with a context supplying exactly
its username placeholder neither misses a parameter nor leaves a
placeholder in a successful result. -/
theorem c1_witness :
    (providesAll [("username", "alice")] sparkEtlTemplate = true ∧
     onlyTemplateTokens [("username", "alice")] sparkEtlTemplate = true) ∧
    (materialize sparkEtlTemplate [("username", "alice")] ≠
       .error (.MissingParameter "username") ∧
     (materialize sparkEtlTemplate [("username", "alice")] = .ok sparkEtlAlice →
       placeholderList sparkEtlAlice = [])) :=
  ⟨⟨rfl, rfl⟩,
   (materialize_with_exact_context sparkEtlTemplate [("username", "alice")]
     rfl rfl).1 "username",
   (materialize_with_exact_context sparkEtlTemplate [("username", "alice")]
     rfl rfl).2 sparkEtlAlice⟩

/-- C1 counterexample: a template with empty placeholder set and a
context supplying exactly that empty set on which materialize does not
succeed, because validation rejects the over-limit resource request. -/
theorem c1_counterexample :
    (providesAll [] overLimitTemplate = true ∧
     onlyTemplateTokens [] overLimitTemplate = true) ∧
    ¬∃ d, materialize overLimitTemplate [] = .ok d := by
  refine ⟨⟨rfl, rfl⟩, ?_⟩
  rintro ⟨d, hd⟩
  rw [show materialize overLimitTemplate [] =
      .error (.InvalidDescriptor "resource request exceeds limit") from rfl] at hd
  exact Except.noConfusion hd

/-- C2: for every template and every context missing at least one of
the template's placeholder tokens, resolve fails with a
MissingParameter error naming a missing token, and materialize produces
no descriptor. -/
theorem resolve_missing_parameter (t : WorkloadTemplate)
    (ctx : ResolutionContext) (h : providesAll ctx t = false) :
    ∃ tok, tok ∈ placeholderList t ∧ lookupCtx ctx tok = none ∧
      resolve t ctx = .error (.MissingParameter tok) ∧
      ∀ d, materialize t ctx ≠ .ok d := by
  have hex : ∃ tok ∈ placeholderList t, lookupCtx ctx tok = none := by
    by_contra hc
    push_neg at hc
    have hall : providesAll ctx t = true := by
      simp only [providesAll, List.all_eq_true]
      intro tok htok
      rcases hl : lookupCtx ctx tok with _ | v
      · exact absurd hl (hc tok htok)
      · simp
    rw [hall] at h
    exact Bool.noConfusion h
  obtain ⟨tok, hmem, hnone, herr⟩ := resolveTokens_missing hex
  refine ⟨tok, hmem, hnone, herr, ?_⟩
  intro d hd
  cases hs : substituteFields ctx t with
  | error e => simp [materialize, hs] at hd
  | ok d0 =>
    have hsome := substituteFields_ok_provided hs tok hmem
    rw [hnone] at hsome
    simp at hsome

/-- C2 witness: with an empty context the spark ETL template resolves
to a MissingParameter error naming the username token, and no
descriptor is produced. -/
theorem c2_witness :
    providesAll [] sparkEtlTemplate = false ∧
    resolve sparkEtlTemplate [] = .error (.MissingParameter "username") ∧
    materialize sparkEtlTemplate [] ≠ .ok sparkEtlAlice := by
  refine ⟨rfl, rfl, ?_⟩
  obtain ⟨tok, _, _, _, hnd⟩ := resolve_missing_parameter sparkEtlTemplate [] rfl
  exact hnd sparkEtlAlice

/-- C3: every materialized descriptor in which some resource request
exceeds its corresponding limit is rejected by validation with
InvalidDescriptor, and materialize never hands such a descriptor to the
Submission Client. -/
theorem validate_rejects_over_limit (d : MaterializedDescriptor)
    (rk lk rs ls : String) (rq lq : Nat)
    (hmem : (rk, lk) ∈ resourcePairs)
    (hr : getValue d rk = some rs) (hl : getValue d lk = some ls)
    (hqr : parseQuantity rs = some rq) (hql : parseQuantity ls = some lq)
    (hgt : lq < rq) :
    (∃ reason, validate d = .error (.InvalidDescriptor reason)) ∧
    ∀ t ctx, materialize t ctx ≠ .ok d := by
  have hpair : pairOk d (rk, lk) = false := by
    simp only [pairOk, hr, hl, hqr, hql]
    simp [decide_eq_false_iff_not]
    omega
  have hres : resourcesOk d = false := by
    cases hb : resourcesOk d with
    | false => rfl
    | true =>
      have hall := List.all_eq_true.mp hb (rk, lk) hmem
      rw [hpair] at hall
      exact Bool.noConfusion hall
  have hval : ∃ reason, validate d = .error (.InvalidDescriptor reason) := by
    cases hsec : sectionsOk d with
    | false => exact ⟨"missing required top-level section", by simp [validate, hsec]⟩
    | true => exact ⟨"resource request exceeds limit", by simp [validate, hsec, hres]⟩
  refine ⟨hval, ?_⟩
  intro t ctx hok
  obtain ⟨reason, hre⟩ := hval
  cases hs : substituteFields ctx t with
  | error e => simp [materialize, hs] at hok
  | ok d0 =>
    cases hv : validate d0 with
    | error e => simp [materialize, hs, hv] at hok
    | ok u =>
      have hd0 : d0 = d := by simpa [materialize, hs, hv] using hok
      rw [hd0, hre] at hv
      exact Except.noConfusion hv

/-- C3 witness: the over-limit descriptor (driver requests 2 cores
against a 1000m limit) is rejected with InvalidDescriptor and never
produced by materialize. -/
theorem c3_witness :
    (("spec.driver.cores", "spec.driver.coreLimit") ∈ resourcePairs ∧
     getValue overLimitDescriptor "spec.driver.cores" = some "2" ∧
     getValue overLimitDescriptor "spec.driver.coreLimit" = some "1000m" ∧
     parseQuantity "2" = some 2000 ∧ parseQuantity "1000m" = some 1000 ∧
     1000 < 2000) ∧
    ((∃ reason, validate overLimitDescriptor = .error (.InvalidDescriptor reason)) ∧
     ∀ t ctx, materialize t ctx ≠ .ok overLimitDescriptor) :=
  ⟨⟨by decide, rfl, rfl, rfl, rfl, by decide⟩,
   validate_rejects_over_limit overLimitDescriptor
     "spec.driver.cores" "spec.driver.coreLimit" "2" "1000m" 2000 1000
     (by decide) rfl rfl rfl rfl (by decide)⟩

/-- C4: materialize is deterministic — two runs on the same template
and the same resolution context produce the same descriptor, hence
byte-identical renderings. -/
theorem materialize_deterministic (t : WorkloadTemplate)
    (ctx : ResolutionContext) (d1 d2 : MaterializedDescriptor)
    (h1 : materialize t ctx = .ok d1) (h2 : materialize t ctx = .ok d2) :
    d1 = d2 ∧ renderDescriptor d1 = renderDescriptor d2 := by
  have h := h1.symm.trans h2
  injection h with h
  exact ⟨h, by rw [h]⟩

/-- C4 witness: two runs of materialize on the spark ETL template with
the alice context agree on the descriptor and its rendering. -/
theorem c4_witness :
    (materialize sparkEtlTemplate [("username", "alice")] = .ok sparkEtlAlice ∧
     materialize sparkEtlTemplate [("username", "alice")] = .ok sparkEtlAlice) ∧
    (sparkEtlAlice = sparkEtlAlice ∧
     renderDescriptor sparkEtlAlice = renderDescriptor sparkEtlAlice) :=
  ⟨⟨rfl, rfl⟩, materialize_deterministic sparkEtlTemplate
    [("username", "alice")] sparkEtlAlice sparkEtlAlice rfl rfl⟩

/-- C6: materialization is all-or-nothing — for every template and
context it either returns a descriptor with no remaining placeholder
token or returns an error; a partially substituted descriptor is never
exposed. -/
theorem materialize_all_or_nothing (t : WorkloadTemplate)
    (ctx : ResolutionContext) :
    (∃ d, materialize t ctx = .ok d ∧ placeholderList d = []) ∨
    ∃ e, materialize t ctx = .error e := by
  cases hs : substituteFields ctx t with
  | error e => exact .inr ⟨e, by simp [materialize, hs]⟩
  | ok d =>
    cases hv : validate d with
    | error e => exact .inr ⟨e, by simp [materialize, hs, hv]⟩
    | ok u =>
      exact .inl ⟨d, by simp [materialize, hs, hv], substituteFields_ok_tokens hs⟩

/-- The poll loop either returns a terminal phase or times out. -/
theorem pollLoop_cases (status : Nat → Phase) :
    ∀ (n k : Nat), (∃ p, pollLoop status k n = .ok p ∧ p.isTerminal = true) ∨
      pollLoop status k n = .error .Timeout
  | 0, _ => .inr rfl
  | n + 1, k => by
    cases ht : (status k).isTerminal with
    | true => exact .inl ⟨status k, by simp [pollLoop, ht], ht⟩
    | false =>
      have hrec := pollLoop_cases status n (k + 1)
      simpa [pollLoop, ht] using hrec

/-- When no polled phase is terminal, the poll loop times out. -/
theorem pollLoop_timeout (status : Nat → Phase) :
    ∀ (n k : Nat), (∀ j, j < n → (status (k + j)).isTerminal = false) →
      pollLoop status k n = .error .Timeout
  | 0, _, _ => rfl
  | n + 1, k, h => by
    have h0 : (status k).isTerminal = false := by
      have hj := h 0 (Nat.succ_pos n)
      simpa using hj
    have hrest : ∀ j, j < n → (status (k + 1 + j)).isTerminal = false := by
      intro j hj
      have hsh := h (j + 1) (Nat.succ_lt_succ hj)
      have he : k + (j + 1) = k + 1 + j := by omega
      rwa [he] at hsh
    simpa [pollLoop, h0] using pollLoop_timeout status n (k + 1) hrest

/-- C5: await_terminal terminates for every record — it either returns
a record whose phase is terminal (Succeeded or Failed) within the poll
budget, or stops and fails with Timeout; in particular when no poll
within the timeout observes a terminal phase the result is the Timeout
error, never an unbounded poll. -/
theorem await_terminal_terminates (status : Nat → Phase)
    (record : SubmissionRecord) (timeout interval : Nat) :
    ((∃ record2, await_terminal status record timeout interval = .ok record2 ∧
        record2.phase.isTerminal = true) ∨
      await_terminal status record timeout interval = .error .Timeout) ∧
    ((∀ k, k < timeout / interval → (status k).isTerminal = false) →
      await_terminal status record timeout interval = .error .Timeout) := by
  constructor
  · rcases pollLoop_cases status (timeout / interval) 0 with ⟨p, hp, hterm⟩ | htm
    · exact .inl ⟨{ record with phase := p }, by simp [await_terminal, hp], hterm⟩
    · exact .inr (by simp [await_terminal, htm])
  · intro h
    have hto : pollLoop status 0 (timeout / interval) = .error .Timeout := by
      apply pollLoop_timeout
      intro j hj
      simpa using h j hj
    simp [await_terminal, hto]

/-- C5 witness: a record that never leaves Running is timed out by
await_terminal with a 600-second timeout polled every 10 seconds. -/
theorem c5_witness :
    (∀ k, k < 600 / 10 → (alwaysRunning k).isTerminal = false) ∧
    await_terminal alwaysRunning ⟨"gpu-mnist-inferenceservice", .Running, ""⟩
        600 10 = .error .Timeout :=
  ⟨by decide, (await_terminal_terminates alwaysRunning
      ⟨"gpu-mnist-inferenceservice", .Running, ""⟩ 600 10).2 (by decide)⟩

/-- Replacing the row of a stored key makes the new row the one found
at that key. -/
theorem findRow_replace_self :
    ∀ (store : OnlineStore) (r cur : FeatureRow),
      findRow store r.key = some cur →
      findRow (replaceRow store r) r.key = some r
  | [], _, _, h => by simp [findRow] at h
  | x :: rest, r, cur, h => by
    by_cases hx : x.key = r.key
    · simp [replaceRow, hx, findRow]
    · have h2 : findRow rest r.key = some cur := by simpa [findRow, hx] using h
      simp [replaceRow, findRow, hx, findRow_replace_self rest r cur h2]

/-- Replacing the row of one key leaves lookups of other keys
unchanged. -/
theorem findRow_replace_other :
    ∀ (store : OnlineStore) (r : FeatureRow) (k : Nat), k ≠ r.key →
      findRow (replaceRow store r) k = findRow store k
  | [], _, _, _ => rfl
  | x :: rest, r, k, hk => by
    by_cases hx : x.key = r.key
    · have hxk : ¬ x.key = k := by rw [hx]; exact fun he => hk he.symm
      have hrk : ¬ r.key = k := fun he => hk he.symm
      simp [replaceRow, findRow, hx, hxk, hrk, findRow_replace_other rest r k hk]
    · simp only [replaceRow, if_neg hx, findRow]
      rw [findRow_replace_other rest r k hk]

/-- After upserting a row, its key is stored with at least the row's
timestamp. -/
theorem upsert_find_self (store : OnlineStore) (r : FeatureRow) :
    ∃ a, findRow (upsertRow store r) r.key = some a ∧ r.ts ≤ a.ts := by
  cases hf : findRow store r.key with
  | none =>
    refine ⟨r, ?_, Nat.le_refl _⟩
    simp [upsertRow, hf, findRow]
  | some cur =>
    by_cases hts : cur.ts < r.ts
    · refine ⟨r, ?_, Nat.le_refl _⟩
      simp [upsertRow, hf, hts, findRow_replace_self store r cur hf]
    · refine ⟨cur, ?_, Nat.le_of_not_lt hts⟩
      simp [upsertRow, hf, hts]

/-- Upserting never lowers the timestamp stored at any key. -/
theorem upsert_find_mono (store : OnlineStore) (x : FeatureRow) (k : Nat)
    (cur : FeatureRow) (h : findRow store k = some cur) :
    ∃ a, findRow (upsertRow store x) k = some a ∧ cur.ts ≤ a.ts := by
  cases hf : findRow store x.key with
  | none =>
    have hk : ¬ x.key = k := by
      intro he
      rw [he] at hf
      rw [hf] at h
      exact Option.noConfusion h
    exact ⟨cur, by simp [upsertRow, hf, findRow, hk, h], Nat.le_refl _⟩
  | some cur2 =>
    by_cases hts : cur2.ts < x.ts
    · by_cases hk : k = x.key
      · subst hk
        have hcc : cur = cur2 := Option.some.inj (h.symm.trans hf)
        refine ⟨x, ?_, ?_⟩
        · simp [upsertRow, hf, hts, findRow_replace_self store x cur2 hf]
        · rw [hcc]; exact Nat.le_of_lt hts
      · refine ⟨cur, ?_, Nat.le_refl _⟩
        simp [upsertRow, hf, hts, findRow_replace_other store x k hk, h]
    · exact ⟨cur, by simp [upsertRow, hf, hts, h], Nat.le_refl _⟩

/-- Syncing a row list never lowers the timestamp stored at any key. -/
theorem syncRows_find_mono :
    ∀ (src : List FeatureRow) (store : OnlineStore) (k : Nat)
      (cur : FeatureRow), findRow store k = some cur →
      ∃ b, findRow (syncRows store src) k = some b ∧ cur.ts ≤ b.ts
  | [], _, _, cur, h => ⟨cur, h, Nat.le_refl _⟩
  | x :: rest, store, k, cur, h => by
    obtain ⟨a, ha, hle⟩ := upsert_find_mono store x k cur h
    obtain ⟨b, hb, hle2⟩ := syncRows_find_mono rest (upsertRow store x) k a ha
    exact ⟨b, hb, Nat.le_trans hle hle2⟩

/-- After syncing, every source row's key is stored with at least that
row's timestamp. -/
theorem syncRows_covers :
    ∀ (src : List FeatureRow) (store : OnlineStore) (r : FeatureRow),
      r ∈ src →
      ∃ a, findRow (syncRows store src) r.key = some a ∧ r.ts ≤ a.ts
  | [], _, r, hmem => absurd hmem (List.not_mem_nil r)
  | x :: rest, store, r, hmem => by
    rcases List.mem_cons.mp hmem with heq | hmem2
    · subst heq
      obtain ⟨a, ha, hle⟩ := upsert_find_self store r
      obtain ⟨b, hb, hle2⟩ := syncRows_find_mono rest (upsertRow store r) r.key a ha
      exact ⟨b, hb, Nat.le_trans hle hle2⟩
    · exact syncRows_covers rest (upsertRow store x) r hmem2

/-- Syncing rows that are all already covered by the store is a
no-op. -/
theorem syncRows_noop :
    ∀ (src : List FeatureRow) (store : OnlineStore),
      (∀ r ∈ src, ∃ a, findRow store r.key = some a ∧ r.ts ≤ a.ts) →
      syncRows store src = store
  | [], _, _ => rfl
  | x :: rest, store, h => by
    obtain ⟨a, ha, hle⟩ := h x (List.mem_cons_self x rest)
    have hup : upsertRow store x = store := by
      simp [upsertRow, ha, Nat.not_lt.mpr hle]
    show syncRows (upsertRow store x) rest = store
    rw [hup]
    exact syncRows_noop rest store (fun r hr => h r (List.mem_cons_of_mem x hr))

/-- Syncing the same row list twice equals syncing it once. -/
theorem syncRows_idem (store : OnlineStore) (src : List FeatureRow) :
    syncRows (syncRows store src) src = syncRows store src :=
  syncRows_noop src (syncRows store src) (fun r hr => syncRows_covers src store r hr)

/-- C7: the two-phase store synchronization (apply the schema, then
incrementally materialize the data) is idempotent — a second run at a
later cutoff with no new source data leaves the store in the same state
as the first run. -/
theorem sync_two_phase_idempotent (defs : List String)
    (source : List FeatureRow) (now now2 : Nat) (s : StoreState)
    (hnow : now ≤ now2) (hnew : ∀ r ∈ source, r.ts ≤ now) :
    syncStore defs source now2 (syncStore defs source now s) =
      syncStore defs source now s := by
  have hf1 : source.filter (fun r => r.ts ≤ now) = source :=
    List.filter_eq_self.mpr (fun r hr => by simpa using hnew r hr)
  have hf2 : source.filter (fun r => r.ts ≤ now2) = source :=
    List.filter_eq_self.mpr
      (fun r hr => by simp; exact Nat.le_trans (hnew r hr) hnow)
  simp [syncStore, materialize_incremental, applyDefs, hf1, hf2, syncRows_idem]

/-- C7 witness: applying and incrementally materializing the concrete
driver-stats rows a second time at a later cutoff leaves the store
unchanged. -/
theorem c7_witness :
    (5 ≤ 9 ∧ ∀ r ∈ rideSharingSource, r.ts ≤ 5) ∧
    syncStore ["driver_hourly_stats"] rideSharingSource 9
        (syncStore ["driver_hourly_stats"] rideSharingSource 5 ⟨[], []⟩) =
      syncStore ["driver_hourly_stats"] rideSharingSource 5 ⟨[], []⟩ :=
  ⟨⟨by decide, by decide⟩,
   sync_two_phase_idempotent ["driver_hourly_stats"] rideSharingSource 5 9
     ⟨[], []⟩ (by decide) (by decide)⟩

/-- C8: the training workflow's version guard is sound — the guarded
rest of the workflow runs exactly when the installed mlflow version is
2.4.0, and for any other version the guard cell raises and the rest is
not reached. -/
theorem mlflow_version_guard_sound (installed : String) (result : Nat) :
    (installed = "2.4.0" → runGuardedWorkflow installed result = .ok result) ∧
    (installed ≠ "2.4.0" →
      runGuardedWorkflow installed result =
        .error "Restart the kernel and try again") := by
  constructor
  · intro h
    simp [runGuardedWorkflow, mlflowVersionGuard, h, Except.map]
  · intro h
    simp [runGuardedWorkflow, mlflowVersionGuard, h, Except.map]

/-- C8 witness: the guard passes on the pinned version 2.4.0 and raises
on 2.3.1. -/
theorem c8_witness :
    (("2.4.0" : String) = "2.4.0" ∧
      runGuardedWorkflow "2.4.0" (0 : Nat) = .ok 0) ∧
    (("2.3.1" : String) ≠ "2.4.0" ∧
      runGuardedWorkflow "2.3.1" (0 : Nat) =
        .error "Restart the kernel and try again") :=
  ⟨⟨rfl, (mlflow_version_guard_sound "2.4.0" 0).1 rfl⟩,
   ⟨by decide, (mlflow_version_guard_sound "2.3.1" 0).2 (by decide)⟩⟩

/-- Setting a mapping key makes the new value the one looked up at that
key. -/
theorem lookupField_setField_self :
    ∀ (fs : List (String × Yaml)) (k : String) (v : Yaml),
      lookupField (setField fs k v) k = some v
  | [], k, v => by simp [setField, lookupField]
  | (k0, w) :: rest, k, v => by
    by_cases hk : k0 = k
    · simp [setField, hk, lookupField]
    · simp [setField, hk, lookupField, lookupField_setField_self rest k v]

/-- Setting a mapping key leaves lookups of other keys unchanged. -/
theorem lookupField_setField_other :
    ∀ (fs : List (String × Yaml)) (k k2 : String) (v : Yaml), k2 ≠ k →
      lookupField (setField fs k v) k2 = lookupField fs k2
  | [], k, k2, v, hne => by
    have hne2 : ¬ k = k2 := fun h => hne h.symm
    simp [setField, lookupField, hne2]
  | (k0, w) :: rest, k, k2, v, hne => by
    by_cases hk : k0 = k
    · subst hk
      have hne2 : ¬ k0 = k2 := fun h => hne h.symm
      simp [setField, lookupField, hne2]
    · simp [setField, hk, lookupField,
        lookupField_setField_other rest k k2 v hne]

/-- Setting a value at a path leaves every disjoint path unchanged. -/
theorem getPath_setPath_disjoint :
    ∀ (target : List String) (y y2 v : Yaml) (q : List String),
      setPath y target v = some y2 → pathDisjoint target q = true →
      getPath y2 q = getPath y q
  | [], y, y2, v, q, h, _ => by simp [setPath] at h
  | [k], y, y2, v, q, h, hdis => by
    cases y with
    | str s => simp [setPath] at h
    | map fs =>
      simp only [setPath, Option.some.injEq] at h
      subst h
      cases q with
      | nil => simp [pathDisjoint, isPrefixL] at hdis
      | cons q1 qs =>
        by_cases hq : q1 = k
        · exfalso
          subst hq
          simp [pathDisjoint, isPrefixL] at hdis
        · have hlk : lookupField (setField fs k v) q1 = lookupField fs q1 :=
            lookupField_setField_other fs k q1 v hq
          simp only [getPath, hlk]
  | k :: k2 :: ks, y, y2, v, q, h, hdis => by
    cases y with
    | str s => simp [setPath] at h
    | map fs =>
      simp only [setPath] at h
      cases hlf : lookupField fs k with
      | none => rw [hlf] at h; simp at h
      | some child =>
        simp only [hlf] at h
        cases hsp : setPath child (k2 :: ks) v with
        | none => rw [hsp] at h; simp at h
        | some c2 =>
          rw [hsp] at h
          simp only [Option.map_some', Option.some.injEq] at h
          subst h
          cases q with
          | nil => simp [pathDisjoint, isPrefixL] at hdis
          | cons q1 qs =>
            by_cases hq : q1 = k
            · subst hq
              have hdis2 : pathDisjoint (k2 :: ks) qs = true := by
                simpa [pathDisjoint, isPrefixL] using hdis
              have hself : lookupField (setField fs q1 c2) q1 = some c2 :=
                lookupField_setField_self fs q1 c2
              simp only [getPath, hself, hlf]
              exact getPath_setPath_disjoint (k2 :: ks) child c2 v qs hsp hdis2
            · have hlk : lookupField (setField fs k c2) q1 = lookupField fs q1 :=
                lookupField_setField_other fs k q1 c2 hq
              simp only [getPath, hlk]

/-- After setting a value at a path, that path holds the new value. -/
theorem getPath_setPath_self :
    ∀ (target : List String) (y y2 v : Yaml),
      setPath y target v = some y2 → getPath y2 target = some v
  | [], y, y2, v, h => by simp [setPath] at h
  | [k], y, y2, v, h => by
    cases y with
    | str s => simp [setPath] at h
    | map fs =>
      simp only [setPath, Option.some.injEq] at h
      subst h
      simp [getPath, lookupField_setField_self fs k v]
  | k :: k2 :: ks, y, y2, v, h => by
    cases y with
    | str s => simp [setPath] at h
    | map fs =>
      simp only [setPath] at h
      cases hlf : lookupField fs k with
      | none => rw [hlf] at h; simp at h
      | some child =>
        simp only [hlf] at h
        cases hsp : setPath child (k2 :: ks) v with
        | none => rw [hsp] at h; simp at h
        | some c2 =>
          rw [hsp] at h
          simp only [Option.map_some', Option.some.injEq] at h
          subst h
          simp [getPath, lookupField_setField_self fs k c2,
            getPath_setPath_self (k2 :: ks) child c2 v hsp]

/-- C9: the inference-service materialization cell preserves the
template and frames its change — the template file path differs from
the output path it writes, the produced document holds the saved-model
URI at spec.predictor.tensorflow.storageUri, and every path disjoint
from that field is unchanged from the loaded template. -/
theorem materialize_cell_frame (template : Yaml) (saved : String)
    (y2 : Yaml) (h : materializeCell template saved = some y2) :
    templateFilePath ≠ outputFilePath ∧
    getPath y2 storageUriPath = some (.str saved) ∧
    ∀ q, pathDisjoint storageUriPath q = true →
      getPath y2 q = getPath template q :=
  ⟨by decide,
   getPath_setPath_self storageUriPath template y2 (.str saved) h,
   fun q hq =>
     getPath_setPath_disjoint storageUriPath template y2 (.str saved) q h hq⟩

/-- C9 witness: materializing the concrete inference-service template
writes the saved-model URI into storageUri and leaves the kind field of
the template unchanged; the input and output file paths differ. -/
theorem c9_witness :
    (materializeCell mnistInferenceTemplate
        "s3://mlflow/1/abc/artifacts/model/data/model/1" =
      some mnistInferenceMaterialized) ∧
    (templateFilePath ≠ outputFilePath ∧
     getPath mnistInferenceMaterialized storageUriPath =
       some (.str "s3://mlflow/1/abc/artifacts/model/data/model/1") ∧
     getPath mnistInferenceMaterialized ["kind"] =
       getPath mnistInferenceTemplate ["kind"]) := by
  have happ := materialize_cell_frame mnistInferenceTemplate
    "s3://mlflow/1/abc/artifacts/model/data/model/1"
    mnistInferenceMaterialized rfl
  exact ⟨rfl, happ.1, happ.2.1, happ.2.2 ["kind"] rfl⟩

/-- C10: the model-save cell restores global state — whenever log_model
completes, the final value of the mlflow tensorflow model-save path
equals its value from before the cell, i.e. the temporary slash-one
suffix appended for saving is undone. -/
theorem model_save_path_restored (logModel : String → Option ModelInfo)
    (savePath : String) (info : ModelInfo)
    (h : (saveCellRun logModel savePath).1 = some info) :
    (saveCellRun logModel savePath).2 = savePath := by
  cases hl : logModel (savePath ++ "/1") with
  | some i => simp [saveCellRun, hl]
  | none => simp [saveCellRun, hl] at h

/-- C10 witness: with a log_model call that completes, the save path is
restored to its pre-cell value. -/
theorem c10_witness :
    ((saveCellRun (fun p => some ⟨"run-1", p⟩) "model").1 =
      some ⟨"run-1", "model/1"⟩) ∧
    (saveCellRun (fun p => some ⟨"run-1", p⟩) "model").2 = "model" :=
  ⟨rfl, model_save_path_restored (fun p => some ⟨"run-1", p⟩) "model"
    ⟨"run-1", "model/1"⟩ rfl⟩
